import Mathlib

/-
Shallow embedding of `BertEmbeddingDataset`
(`nemo/collections/llm/bert/data/core.py`): the per-example transform
(`_process_example`), the negative-sampling step inside it, and the batch
collation (`_collate_fn`, `_collate_item`, `_create_attention_mask2`,
`_ceil_to_nearest`), together with theorems about the behaviour of these
functions.

Modelling conventions:
- The tokenizer is an external collaborator; it is modelled as an abstract
  function `textToIds : String → List Int` plus its fixed special ids.
- Python's process-wide random generator is modelled as an explicit stream
  `rng : Nat → Nat` of draws; `random.choices` / `random.sample` consume it.
- Fallible Python code (exceptions / assertion failures) is modelled with
  `Option` / `Except`.
- Machine integers are `Int` / `Nat`; Python `//` on the in-range operands
  used here (numerator ≥ 0, divisor > 0) agrees with Lean's `Int` division.
-/

/-- Constructor configuration of `BertEmbeddingDataset` (the fields consulted
by `_process_example` and `_collate_fn`). -/
structure Config where
  maxSeqLength : Nat
  addBos : Bool
  addEos : Bool
  virtualTokens : Nat
  truncationMethod : String
  dataType : String
  numHardNegatives : Nat
  negativeSampleStrategy : String

/-- The tokenizer collaborator: `text_to_ids` plus the special ids.
`padId = none` models a tokenizer whose `pad_id` attribute is `None`. -/
structure Tokenizer where
  textToIds : String → List Int
  bosId : Int
  eosId : Int
  padId : Option Int

/-- A raw JSONL record: the text fields used by the transform, plus whether
the optional `query_id` / `doc_id` metadata keys are present. -/
structure RawRecord where
  query : String
  posDoc : String
  negDoc : List String
  hasQueryId : Bool
  hasDocId : Bool
deriving DecidableEq, Repr

/-- The per-example output of `_process_example`. -/
structure ShapedExample where
  query : List Int
  posDoc : List Int
  negDoc : List (List Int)
  metadata : RawRecord
deriving DecidableEq, Repr

/-- Failures of `_process_example`: failed `assert`s and the
`ValueError` raised on an unknown `data_type`. -/
inductive ProcessError where
  | missingField : String → ProcessError
  | invalidDataType : String → ProcessError
  | samplingFault : ProcessError
deriving DecidableEq, Repr

/-- Line 132 of `__init__`:
`self.pad_token_id = self.tokenizer.pad_id if self.tokenizer.pad_id else self.tokenizer.eos_id`.
Python truthiness makes both `None` and `0` fall back to the eos id. -/
def padTokenId (tok : Tokenizer) : Int :=
  match tok.padId with
  | none => tok.eosId
  | some p => if p = 0 then tok.eosId else p

/-- The `assert`s at lines 134-139 of `__init__`: the only configuration
validation performed at construction time (`data_type` is not checked there). -/
def initValid (truncationMethod negativeSampleStrategy : String) : Bool :=
  (truncationMethod == "left" || truncationMethod == "right")
    && (negativeSampleStrategy == "random" || negativeSampleStrategy == "first")

/-- Python `random.choices(pop, k=k)`: `k` draws with replacement.
With an empty population and `k > 0` CPython raises `IndexError` (modelled as
`none`); with `k = 0` it returns the empty list. -/
def pyChoices {α : Type} (pop : List α) (k : Nat) (rng : Nat → Nat) :
    Option (List α) :=
  if k = 0 then some []
  else if h : 0 < pop.length then
    some ((List.range k).map (fun i => pop.get ⟨rng i % pop.length, Nat.mod_lt _ h⟩))
  else none

/-- Draw loop of Python `random.sample`: repeatedly pick an index and remove
the chosen element (sampling without replacement). -/
def pySampleAux {α : Type} (rng : Nat → Nat) : Nat → List α → Nat → List α
  | 0, _, _ => []
  | k + 1, pop, i =>
    match pop[rng i % pop.length]? with
    | none => []
    | some x => x :: pySampleAux rng k (pop.eraseIdx (rng i % pop.length)) (i + 1)

/-- Python `random.sample(pop, k=k)`: `k` distinct draws without replacement;
raises `ValueError` (modelled as `none`) when `k` exceeds the population. -/
def pySample {α : Type} (pop : List α) (k : Nat) (rng : Nat → Nat) :
    Option (List α) :=
  if k ≤ pop.length then some (pySampleAux rng k pop 0) else none

/-- Lines 236-247 of `_process_example` (train mode): reduce or expand the
record's `neg_doc` list to `num_hard_negatives` items. When the list is too
short, keep it and draw the remainder with replacement; otherwise sample
without replacement (`random`) or take a prefix (`first`, the `else` branch). -/
def sampleNegatives {α : Type} (negDoc : List α) (K : Nat) (strategy : String)
    (rng : Nat → Nat) : Option (List α) :=
  if negDoc.length < K then
    (pyChoices negDoc (K - negDoc.length) rng).map (fun extra => negDoc ++ extra)
  else if strategy = "random" then
    pySample negDoc K rng
  else
    some (negDoc.take K)

/-- Python slice `xs[:i]` for an integer bound `i` (negative bounds count from
the end, as in `xs[: max_seq_length - 1]` when `max_seq_length = 0`). -/
def pySlice {α : Type} (xs : List α) (i : Int) : List α :=
  if 0 ≤ i then xs.take i.toNat else xs.take ((xs.length : Int) + i).toNat

/-- Lines 267-287 of `_process_example`, applied uniformly to the query, the
positive document and every negative: prepend `virtual_tokens` copies of the
eos id, prepend one bos id if `add_bos`, truncate to `xs[: max_seq_length - 1]`,
then append one eos id if `add_eos`. -/
def shapeSeq (cfg : Config) (tok : Tokenizer) (ids : List Int) : List Int :=
  let withVirtual := List.replicate cfg.virtualTokens tok.eosId ++ ids
  let withBos := if cfg.addBos then tok.bosId :: withVirtual else withVirtual
  let truncated := pySlice withBos ((cfg.maxSeqLength : Int) - 1)
  if cfg.addEos then truncated ++ [tok.eosId] else truncated

/-- `_process_example` (lines 224-295): mode dispatch, negative sampling with
its defensive length `assert`, then token shaping; the raw record is passed
through as metadata. -/
def processExample (cfg : Config) (tok : Tokenizer) (rng : Nat → Nat)
    (ex : RawRecord) : Except ProcessError ShapedExample :=
  if cfg.dataType = "train" then
    let q := tok.textToIds ("query: " ++ ex.query.trim)
    let d := tok.textToIds ("passage: " ++ ex.posDoc.trim)
    match sampleNegatives ex.negDoc cfg.numHardNegatives cfg.negativeSampleStrategy rng with
    | none => Except.error ProcessError.samplingFault
    | some nd =>
      if nd.length = cfg.numHardNegatives then
        let ndIds := nd.map (fun s => tok.textToIds ("passage: " ++ s.trim))
        Except.ok { query := shapeSeq cfg tok q, posDoc := shapeSeq cfg tok d,
                    negDoc := ndIds.map (fun n => shapeSeq cfg tok n), metadata := ex }
      else Except.error ProcessError.samplingFault
  else if cfg.dataType = "query" then
    let q := tok.textToIds ("query: " ++ ex.query.trim)
    if ex.hasQueryId then
      if ex.hasDocId then
        Except.ok { query := shapeSeq cfg tok q, posDoc := shapeSeq cfg tok [],
                    negDoc := [], metadata := ex }
      else Except.error (ProcessError.missingField "doc_id")
    else Except.error (ProcessError.missingField "query_id")
  else if cfg.dataType = "doc" then
    let d := tok.textToIds ("passage: " ++ ex.posDoc.trim)
    if ex.hasDocId then
      Except.ok { query := shapeSeq cfg tok [], posDoc := shapeSeq cfg tok d,
                  negDoc := [], metadata := ex }
    else Except.error (ProcessError.missingField "doc_id")
  else
    Except.error (ProcessError.invalidDataType cfg.dataType)

/-- `_ceil_to_nearest` (lines 302-303): `(n + m - 1) // m * m`. -/
def ceilToNearest (n m : Int) : Int := (n + m - 1) / m * m

/-- The per-example rows contributed to the flat `input_ids` list of
`_collate_fn` (lines 341-361): query, positive, then each negative in train
mode; a single row in `query` / `doc` mode. -/
def batchRows (cfg : Config) (item : ShapedExample) : List (List Int) :=
  if cfg.dataType = "train" then item.query :: item.posDoc :: item.negDoc
  else if cfg.dataType = "query" then [item.query]
  else [item.posDoc]

/-- Same as `batchRows` but modelling the `ValueError` raised inside the
collation loop for an unknown `data_type` (lines 362-363). -/
def batchRowsChecked (cfg : Config) (item : ShapedExample) :
    Option (List (List Int)) :=
  if cfg.dataType = "train" then some (item.query :: item.posDoc :: item.negDoc)
  else if cfg.dataType = "query" then some [item.query]
  else if cfg.dataType = "doc" then some [item.posDoc]
  else none

/-- The flat list of batch rows (train mode interleaves query, positive and
negatives per example, in input order). -/
def collateRows (cfg : Config) (batch : List ShapedExample) : List (List Int) :=
  (batch.map (fun item => batchRows cfg item)).flatten

/-- The running `max_length` accumulator of `_collate_fn`: starts at `-1` and
takes the maximum of all row lengths. -/
def rowLengthsMax (rows : List (List Int)) : Int :=
  (rows.map (fun r => (r.length : Int))).foldl max (-1)

/-- Line 365 of `_collate_fn`: the shared padded length
`min(max_seq_length, ceil_to_nearest(max_length, 16))`. -/
def paddedLength (maxSeqLength : Nat) (rows : List (List Int)) : Nat :=
  (min (maxSeqLength : Int) (ceilToNearest (rowLengthsMax rows) 16)).toNat

/-- `_collate_item` (lines 305-312): pad every row to `max_length` with
`pad_token_id`, on the left when `truncation_method == 'left'` and on the
right otherwise. -/
def collateItem (cfg : Config) (tok : Tokenizer) (item : List (List Int))
    (maxLength : Nat) : List (List Int) :=
  if cfg.truncationMethod = "left" then
    item.map (fun x => List.replicate (maxLength - x.length) (padTokenId tok) ++ x)
  else
    item.map (fun x => x ++ List.replicate (maxLength - x.length) (padTokenId tok))

/-- `_create_attention_mask2` (lines 314-331): a zero vector of length
`max_length` whose last (`left`) or first (otherwise) `item_length` entries
are set to 1. -/
def createAttentionMask2 (cfg : Config) (maxLength itemLength : Nat) : List Int :=
  if cfg.truncationMethod = "left" then
    (List.range maxLength).map (fun i => if maxLength - itemLength ≤ i then 1 else 0)
  else
    (List.range maxLength).map (fun i => if i < itemLength then 1 else 0)

/-- Line 373 of `_collate_fn`: the lengths tensor, raw row lengths minus 1
"to account for the eos token".  Note that the dict returned by
`_collate_fn` does not include this value. -/
def collateLengthsMinusOne (cfg : Config) (batch : List ShapedExample) : List Int :=
  ((collateRows cfg batch).map (fun r => (r.length : Int))).map (fun l => l - 1)

/-- A value stored in the collated batch dict: an integer tensor or the
metadata list. -/
inductive BatchValue where
  | tensor : List (List Int) → BatchValue
  | metaEntries : List RawRecord → BatchValue
deriving DecidableEq, Repr

/-- Python dict lookup on the (unique-keyed) batch dict literal. -/
def dictGet (d : List (String × BatchValue)) (k : String) : Option BatchValue :=
  match d with
  | [] => none
  | (k0, v) :: rest => if k = k0 then some v else dictGet rest k

/-- The dict literal returned by `_collate_fn` (lines 368-381) for a batch
whose rows are `collateRows cfg batch`:  padded `input_ids`, an all-zero
`token_type_ids` of the same shape, the per-row attention masks, the per-item
metadata, and one `range(max_length)` row of `position_ids` per batch item. -/
def collateDictOf (cfg : Config) (tok : Tokenizer) (batch : List ShapedExample) :
    List (String × BatchValue) :=
  let input_ids := collateRows cfg batch
  let lengths := input_ids.map List.length
  let maxLength := paddedLength cfg.maxSeqLength input_ids
  [("input_ids", BatchValue.tensor (collateItem cfg tok input_ids maxLength)),
   ("token_type_ids", BatchValue.tensor
      ((collateItem cfg tok input_ids maxLength).map (fun r => r.map (fun _ => (0 : Int))))),
   ("attention_mask", BatchValue.tensor
      (lengths.map (fun l => createAttentionMask2 cfg maxLength l))),
   ("metadata", BatchValue.metaEntries (batch.map (fun item => item.metadata))),
   ("position_ids", BatchValue.tensor
      (batch.map (fun _ => (List.range maxLength).map (fun i => (i : Int)))))]

/-- The accumulation loop of `_collate_fn` (lines 341-363): append each
item's rows to the flat `input_ids` list, failing on an unknown `data_type`. -/
def collectRows (cfg : Config) : List ShapedExample → Option (List (List Int))
  | [] => some []
  | item :: rest =>
    match batchRowsChecked cfg item, collectRows cfg rest with
    | some rows, some acc => some (rows ++ acc)
    | _, _ => none

/-- `_collate_fn` (lines 333-383): flatten the batch into rows (failing on an
unknown `data_type`), compute the shared padded length, check the
`max_length <= max_seq_length` assertion, and build the batch dict. -/
def collateFn (cfg : Config) (tok : Tokenizer) (batch : List ShapedExample) :
    Option (List (String × BatchValue)) :=
  match collectRows cfg batch with
  | none => none
  | some input_ids =>
    let lengths := input_ids.map List.length
    let maxLength := paddedLength cfg.maxSeqLength input_ids
    if maxLength ≤ cfg.maxSeqLength then
      some [("input_ids", BatchValue.tensor (collateItem cfg tok input_ids maxLength)),
            ("token_type_ids", BatchValue.tensor
               ((collateItem cfg tok input_ids maxLength).map (fun r => r.map (fun _ => (0 : Int))))),
            ("attention_mask", BatchValue.tensor
               (lengths.map (fun l => createAttentionMask2 cfg maxLength l))),
            ("metadata", BatchValue.metaEntries (batch.map (fun item => item.metadata))),
            ("position_ids", BatchValue.tensor
               (batch.map (fun _ => (List.range maxLength).map (fun i => (i : Int)))))]
    else none

/-- Number of rows of a batch-dict value. -/
def numRows : BatchValue → Nat
  | BatchValue.tensor t => t.length
  | BatchValue.metaEntries m => m.length

/-- A concrete tokenizer for the executable scenarios: every text maps to the
single id 9; bos 1, eos 2, pad 3. -/
def tokW : Tokenizer where
  textToIds := fun _ => [9]
  bosId := 1
  eosId := 2
  padId := some 3

/-- A tokenizer whose configured pad id is `0` (falsy in Python). -/
def tokPad0 : Tokenizer where
  textToIds := fun _ => [9]
  bosId := 1
  eosId := 2
  padId := some 0

/-- Train-mode configuration: `max_seq_length = 32`, right truncation, one
hard negative, `first` strategy. -/
def cfgTrain : Config where
  maxSeqLength := 32
  addBos := false
  addEos := true
  virtualTokens := 0
  truncationMethod := "right"
  dataType := "train"
  numHardNegatives := 1
  negativeSampleStrategy := "first"

/-- Like `cfgTrain` but with left truncation. -/
def cfgLeft : Config where
  maxSeqLength := 32
  addBos := false
  addEos := true
  virtualTokens := 0
  truncationMethod := "left"
  dataType := "train"
  numHardNegatives := 1
  negativeSampleStrategy := "first"

/-- Query-mode configuration. -/
def cfgQuery : Config where
  maxSeqLength := 32
  addBos := false
  addEos := true
  virtualTokens := 0
  truncationMethod := "right"
  dataType := "query"
  numHardNegatives := 1
  negativeSampleStrategy := "first"

/-- A configuration whose `data_type` is not one of train/query/doc. -/
def cfgBogus : Config where
  maxSeqLength := 32
  addBos := false
  addEos := true
  virtualTokens := 0
  truncationMethod := "left"
  dataType := "bogus"
  numHardNegatives := 1
  negativeSampleStrategy := "first"

/-- A record carrying all fields. -/
def recA : RawRecord where
  query := "a"
  posDoc := "b"
  negDoc := ["c"]
  hasQueryId := true
  hasDocId := true

/-- A record that lacks the `doc_id` metadata key. -/
def recNoDocId : RawRecord where
  query := "a"
  posDoc := "b"
  negDoc := ["c"]
  hasQueryId := true
  hasDocId := false

/-- A concrete shaped train example (query, positive, one negative). -/
def exA : ShapedExample where
  query := [5, 2]
  posDoc := [6, 2]
  negDoc := [[7, 2]]
  metadata := recA

/-- A second concrete shaped train example. -/
def exB : ShapedExample where
  query := [4, 2]
  posDoc := [8, 2]
  negDoc := [[3, 2]]
  metadata := recA

/-- A batch of two train examples with one hard negative each. -/
def batchC : List ShapedExample := [exA, exB]

/-- A fixed random stream for the executable scenarios. -/
def rngW : Nat → Nat := fun _ => 0

/-- Entries of `range a` mapped through the `a ≤ i` indicator are all zero. -/
theorem range_map_zero_of_ge (a : Nat) :
    (List.range a).map (fun i => if a ≤ i then (1 : Int) else 0)
      = List.replicate a 0 := by
  apply List.eq_replicate_iff.2
  refine ⟨by simp, ?_⟩
  intro x hx
  rcases List.mem_map.1 hx with ⟨i, hi, rfl⟩
  rw [List.mem_range] at hi
  simp [Nat.not_le.2 hi]

/-- Entries of `range a` mapped through the `i < a` indicator are all one. -/
theorem range_map_one_of_lt (a : Nat) :
    (List.range a).map (fun i => if i < a then (1 : Int) else 0)
      = List.replicate a 1 := by
  apply List.eq_replicate_iff.2
  refine ⟨by simp, ?_⟩
  intro x hx
  rcases List.mem_map.1 hx with ⟨i, hi, rfl⟩
  rw [List.mem_range] at hi
  simp [hi]

/-- The suffix indicator over `range (a + b)` is `b` ones after `a` zeros. -/
theorem range_map_indicator_ge (a b : Nat) :
    (List.range (a + b)).map (fun i => if a ≤ i then (1 : Int) else 0)
      = List.replicate a 0 ++ List.replicate b 1 := by
  induction b with
  | zero => simpa using range_map_zero_of_ge a
  | succ b ih =>
    have hr : a + (b + 1) = (a + b) + 1 := rfl
    rw [hr, List.range_succ, List.map_append, ih]
    have hcond : a ≤ a + b := Nat.le_add_right a b
    simp [hcond, List.replicate_succ']

/-- The prefix indicator over `range (a + b)` is `a` ones then `b` zeros. -/
theorem range_map_indicator_lt (a b : Nat) :
    (List.range (a + b)).map (fun i => if i < a then (1 : Int) else 0)
      = List.replicate a 1 ++ List.replicate b 0 := by
  induction b with
  | zero => simpa using range_map_one_of_lt a
  | succ b ih =>
    have hr : a + (b + 1) = (a + b) + 1 := rfl
    rw [hr, List.range_succ, List.map_append, ih]
    have hcond : ¬ (a + b < a) := by omega
    simp [hcond, List.replicate_succ']

/-- Mask layout for left truncation: `item_length` ones as a suffix, zeros
before them, exactly the pad side of `_collate_item`. -/
theorem createAttentionMask2_left (cfg : Config) (m it : Nat)
    (hcfg : cfg.truncationMethod = "left") (h : it ≤ m) :
    createAttentionMask2 cfg m it
      = List.replicate (m - it) 0 ++ List.replicate it 1 := by
  unfold createAttentionMask2
  rw [if_pos hcfg]
  have hx := range_map_indicator_ge (m - it) it
  rwa [Nat.sub_add_cancel h] at hx

/-- Mask layout for right truncation: `item_length` ones as a prefix, zeros
after them. -/
theorem createAttentionMask2_right (cfg : Config) (m it : Nat)
    (hcfg : ¬ cfg.truncationMethod = "left") (h : it ≤ m) :
    createAttentionMask2 cfg m it
      = List.replicate it 1 ++ List.replicate (m - it) 0 := by
  unfold createAttentionMask2
  rw [if_neg hcfg]
  have hx := range_map_indicator_lt it (m - it)
  rwa [Nat.add_sub_cancel' h] at hx

/-- The attention-mask row always sums to the pre-pad row length. -/
theorem createAttentionMask2_sum (cfg : Config) (m it : Nat) (h : it ≤ m) :
    (createAttentionMask2 cfg m it).sum = (it : Int) := by
  by_cases hcfg : cfg.truncationMethod = "left"
  · rw [createAttentionMask2_left cfg m it hcfg h]
    simp [List.sum_replicate]
  · rw [createAttentionMask2_right cfg m it hcfg h]
    simp [List.sum_replicate]

/-- The sampling loop of `random.sample` returns exactly as many elements as
requested whenever the population is large enough. -/
theorem pySampleAux_length {α : Type} (rng : Nat → Nat) :
    ∀ (k : Nat) (pop : List α) (i : Nat), k ≤ pop.length →
      (pySampleAux rng k pop i).length = k := by
  intro k
  induction k with
  | zero => intro pop i _; rfl
  | succ k ih =>
    intro pop i h
    have hpos : 0 < pop.length := lt_of_lt_of_le (Nat.succ_pos k) h
    have hlt : rng i % pop.length < pop.length := Nat.mod_lt _ hpos
    have hget : pop[rng i % pop.length]? = some (pop.get ⟨rng i % pop.length, hlt⟩) := by
      rw [List.getElem?_eq_getElem hlt]
      rfl
    rw [pySampleAux, hget]
    have herase : (pop.eraseIdx (rng i % pop.length)).length = pop.length - 1 := by
      rw [List.length_eraseIdx]
      simp [hlt]
    have hk : k ≤ (pop.eraseIdx (rng i % pop.length)).length := by omega
    simp [ih _ _ hk]

/-- The initial accumulator is below the running maximum. -/
theorem foldl_max_init_le (l : List Int) : ∀ a : Int, a ≤ l.foldl max a := by
  induction l with
  | nil => intro a; exact le_refl a
  | cons x l ih =>
    intro a
    exact le_trans (le_max_left a x) (ih (max a x))

/-- Every element of the list is below the running maximum. -/
theorem le_foldl_max_of_mem (l : List Int) :
    ∀ (a x : Int), x ∈ l → x ≤ l.foldl max a := by
  induction l with
  | nil => intro a x hx; cases hx
  | cons y l ih =>
    intro a x hx
    rcases List.mem_cons.1 hx with rfl | hx
    · exact le_trans (le_max_right a x) (foldl_max_init_le l (max a x))
    · exact ih (max a y) x hx

/-- The running maximum is the initial accumulator or one of the elements. -/
theorem foldl_max_eq_init_or_mem (l : List Int) :
    ∀ a : Int, l.foldl max a = a ∨ l.foldl max a ∈ l := by
  induction l with
  | nil => intro a; exact Or.inl rfl
  | cons y l ih =>
    intro a
    rcases ih (max a y) with h | h
    · rw [List.foldl_cons, h]
      rcases max_choice a y with h2 | h2
      · exact Or.inl h2
      · exact Or.inr (by rw [h2]; exact List.mem_cons_self y l)
    · exact Or.inr (List.mem_cons_of_mem y h)

/-- After shaping, a sequence never exceeds `max_seq_length` (the truncation
to `max_seq_length - 1` reserves room for the appended eos). -/
theorem shapeSeq_length_le (cfg : Config) (tok : Tokenizer) (ids : List Int)
    (h : 1 ≤ cfg.maxSeqLength) :
    (shapeSeq cfg tok ids).length ≤ cfg.maxSeqLength := by
  have h0 : (0 : Int) ≤ (cfg.maxSeqLength : Int) - 1 := by
    have h1 : (1 : Int) ≤ (cfg.maxSeqLength : Int) := by exact_mod_cast h
    omega
  simp only [shapeSeq, pySlice, if_pos h0]
  split
  · rw [List.length_append, List.length_take]
    simp only [List.length_singleton]
    omega
  · rw [List.length_take]
    omega

/-- With `add_eos`, the last token of a shaped sequence is the eos id. -/
theorem shapeSeq_getLast (cfg : Config) (tok : Tokenizer) (ids : List Int)
    (h : cfg.addEos = true) :
    (shapeSeq cfg tok ids).getLast? = some tok.eosId := by
  simp only [shapeSeq, if_pos h]
  exact List.getLast?_concat _

/-- With a recognised `data_type`, the per-item row extraction never raises. -/
theorem batchRowsChecked_eq (cfg : Config) (item : ShapedExample)
    (hmode : cfg.dataType = "train" ∨ cfg.dataType = "query" ∨ cfg.dataType = "doc") :
    batchRowsChecked cfg item = some (batchRows cfg item) := by
  rcases hmode with h | h | h <;> simp [batchRowsChecked, batchRows, h]

/-- With a recognised `data_type`, the row-accumulation loop succeeds and
produces the flat row list. -/
theorem collectRows_eq_of_valid (cfg : Config)
    (hmode : cfg.dataType = "train" ∨ cfg.dataType = "query" ∨ cfg.dataType = "doc") :
    ∀ batch : List ShapedExample, collectRows cfg batch = some (collateRows cfg batch) := by
  intro batch
  induction batch with
  | nil => rfl
  | cons item rest ih =>
    rw [collectRows, batchRowsChecked_eq cfg item hmode, ih]
    simp [collateRows]

/-- The padded length never exceeds `max_seq_length`, so the `assert` at line
366 of `_collate_fn` cannot fail. -/
theorem paddedLength_le (msl : Nat) (rows : List (List Int)) :
    paddedLength msl rows ≤ msl := by
  unfold paddedLength
  exact Int.toNat_le.mpr (min_le_left _ _)

/-- With a recognised `data_type`, `_collate_fn` returns exactly the batch
dict described by `collateDictOf`. -/
theorem collateFn_eq_of_valid (cfg : Config) (tok : Tokenizer)
    (batch : List ShapedExample)
    (hmode : cfg.dataType = "train" ∨ cfg.dataType = "query" ∨ cfg.dataType = "doc") :
    collateFn cfg tok batch = some (collateDictOf cfg tok batch) := by
  unfold collateFn
  rw [collectRows_eq_of_valid cfg hmode batch]
  simp only
  rw [if_pos (paddedLength_le cfg.maxSeqLength _)]
  rfl

/-- C3 (amended): the negative-sampling step returns exactly
`num_hard_negatives` items, for both strategies and in the oversampling
branch, whenever `neg_doc` is non-empty or `K = 0`; with an empty `neg_doc`
and `K > 0` the replacement draw faults instead of returning `K` items. -/
theorem c3_sample_negatives_count (negDoc : List String) (K : Nat)
    (strategy : String) (rng : Nat → Nat)
    (h : 0 < negDoc.length ∨ K = 0) :
    ∃ l, sampleNegatives negDoc K strategy rng = some l ∧ l.length = K := by
  unfold sampleNegatives
  by_cases hlt : negDoc.length < K
  · have hpos : 0 < negDoc.length := by
      rcases h with h | h
      · exact h
      · omega
    rw [if_pos hlt]
    unfold pyChoices
    have hk0 : ¬ (K - negDoc.length = 0) := by omega
    rw [if_neg hk0, dif_pos hpos]
    refine ⟨_, rfl, ?_⟩
    simp
    omega
  · rw [if_neg hlt]
    by_cases hs : strategy = "random"
    · rw [if_pos hs]
      unfold pySample
      have hle : K ≤ negDoc.length := Nat.not_lt.1 hlt
      rw [if_pos hle]
      exact ⟨_, rfl, pySampleAux_length rng K negDoc 0 hle⟩
    · rw [if_neg hs]
      refine ⟨_, rfl, ?_⟩
      rw [List.length_take]
      omega

/-- Witness for C3 at a concrete input. -/
theorem c3_sample_negatives_count_witness :
    (0 < (["x", "y"] : List String).length ∨ 3 = 0)
    ∧ ∃ l, sampleNegatives ["x", "y"] 3 "first" rngW = some l ∧ l.length = 3 :=
  ⟨Or.inl (by decide), c3_sample_negatives_count ["x", "y"] 3 "first" rngW (Or.inl (by decide))⟩

/-- C3 counterexample: with an empty `neg_doc` and `K = 1` the sampler
faults (Python `random.choices` raises `IndexError` on an empty population)
instead of returning one item. -/
theorem c3_counterexample :
    sampleNegatives ([] : List String) 1 "first" rngW = none := rfl

/-- C4: with enough negatives the `first` strategy deterministically takes
the first `K` in original order (independently of the random stream); with
too few, all existing negatives are kept in place and draws with replacement
from the same pool are appended to reach exactly `K`. -/
theorem c4_first_strategy_and_oversampling (negDoc : List String) (K : Nat)
    (rng : Nat → Nat) :
    (K ≤ negDoc.length →
      sampleNegatives negDoc K "first" rng = some (negDoc.take K))
    ∧ (negDoc.length < K → 0 < negDoc.length →
        ∀ strategy : String, ∃ extra,
          sampleNegatives negDoc K strategy rng = some (negDoc ++ extra)
          ∧ extra.length = K - negDoc.length
          ∧ ∀ x ∈ extra, x ∈ negDoc) := by
  constructor
  · intro hle
    unfold sampleNegatives
    rw [if_neg (Nat.not_lt.2 hle), if_neg (by decide : ¬ ("first" : String) = "random")]
  · intro hlt hpos strategy
    unfold sampleNegatives
    rw [if_pos hlt]
    unfold pyChoices
    have hk0 : ¬ (K - negDoc.length = 0) := by omega
    rw [if_neg hk0, dif_pos hpos]
    refine ⟨_, rfl, ?_, ?_⟩
    · simp
    · intro x hx
      rcases List.mem_map.1 hx with ⟨i, _, rfl⟩
      exact List.get_mem _ _ _

/-- Witness for C4 at concrete inputs: `first` with enough negatives takes
the first `K`; with one negative and `K = 3` two replacement draws are
appended. -/
theorem c4_first_strategy_and_oversampling_witness :
    (1 ≤ (["x", "y"] : List String).length
      ∧ sampleNegatives ["x", "y"] 1 "first" rngW = some ["x"])
    ∧ ((["x"] : List String).length < 3
      ∧ 0 < (["x"] : List String).length
      ∧ ∃ extra, sampleNegatives ["x"] 3 "first" rngW = some (["x"] ++ extra)
          ∧ extra.length = 3 - (["x"] : List String).length
          ∧ ∀ x ∈ extra, x ∈ (["x"] : List String)) := by
  constructor
  · exact ⟨by decide, (c4_first_strategy_and_oversampling ["x", "y"] 1 rngW).1 (by decide)⟩
  · exact ⟨by decide, by decide,
      (c4_first_strategy_and_oversampling ["x"] 3 rngW).2 (by decide) (by decide) "first"⟩

/-- C5: for any record the transform accepts, every produced sequence
(query, positive, each negative) is assembled by `shapeSeq` — virtual eos
tokens, optional bos, prefix truncation to `max_seq_length - 1`, optional
eos — and hence has length at most `max_seq_length` and, with `add_eos`,
ends in the eos id. -/
theorem c5_shaped_sequences (cfg : Config) (tok : Tokenizer) (rng : Nat → Nat)
    (ex : RawRecord) (se : ShapedExample)
    (hmsl : 1 ≤ cfg.maxSeqLength)
    (hok : processExample cfg tok rng ex = Except.ok se) :
    (se.query.length ≤ cfg.maxSeqLength
      ∧ (cfg.addEos = true → se.query.getLast? = some tok.eosId))
    ∧ (se.posDoc.length ≤ cfg.maxSeqLength
      ∧ (cfg.addEos = true → se.posDoc.getLast? = some tok.eosId))
    ∧ (∀ n ∈ se.negDoc, n.length ≤ cfg.maxSeqLength
      ∧ (cfg.addEos = true → n.getLast? = some tok.eosId)) := by
  have hP : ∀ a : List Int, (shapeSeq cfg tok a).length ≤ cfg.maxSeqLength
      ∧ (cfg.addEos = true → (shapeSeq cfg tok a).getLast? = some tok.eosId) :=
    fun a => ⟨shapeSeq_length_le cfg tok a hmsl, fun he => shapeSeq_getLast cfg tok a he⟩
  unfold processExample at hok
  by_cases h1 : cfg.dataType = "train"
  · rw [if_pos h1] at hok
    rcases hsn : sampleNegatives ex.negDoc cfg.numHardNegatives cfg.negativeSampleStrategy rng with
      _ | nd
    · simp only [hsn] at hok
      exact Except.noConfusion hok
    · simp only [hsn] at hok
      by_cases hlen : nd.length = cfg.numHardNegatives
      · rw [if_pos hlen] at hok
        rw [Except.ok.injEq] at hok
        subst hok
        refine ⟨hP _, hP _, ?_⟩
        intro n hn
        rcases List.mem_map.1 hn with ⟨c, _, rfl⟩
        exact hP c
      · rw [if_neg hlen] at hok
        exact absurd hok (by simp)
  · rw [if_neg h1] at hok
    by_cases h2 : cfg.dataType = "query"
    · rw [if_pos h2] at hok
      by_cases hq : ex.hasQueryId
      · rw [if_pos hq] at hok
        by_cases hd : ex.hasDocId
        · rw [if_pos hd] at hok
          rw [Except.ok.injEq] at hok
          subst hok
          exact ⟨hP _, hP _, by intro n hn; cases hn⟩
        · rw [if_neg hd] at hok
          exact absurd hok (by simp)
      · rw [if_neg hq] at hok
        exact absurd hok (by simp)
    · rw [if_neg h2] at hok
      by_cases h3 : cfg.dataType = "doc"
      · rw [if_pos h3] at hok
        by_cases hd : ex.hasDocId
        · rw [if_pos hd] at hok
          rw [Except.ok.injEq] at hok
          subst hok
          exact ⟨hP _, hP _, by intro n hn; cases hn⟩
        · rw [if_neg hd] at hok
          exact absurd hok (by simp)
      · rw [if_neg h3] at hok
        exact absurd hok (by simp)

/-- The shaped example the transform produces on `recA` under `cfgTrain`
with the constant tokenizer `tokW`. -/
def seA : ShapedExample where
  query := [9, 2]
  posDoc := [9, 2]
  negDoc := [[9, 2]]
  metadata := recA

/-- Witness for C5 at a concrete input. -/
theorem c5_shaped_sequences_witness :
    (1 ≤ cfgTrain.maxSeqLength
      ∧ processExample cfgTrain tokW rngW recA = Except.ok seA)
    ∧ ((seA.query.length ≤ cfgTrain.maxSeqLength
      ∧ (cfgTrain.addEos = true → seA.query.getLast? = some tokW.eosId))
    ∧ (seA.posDoc.length ≤ cfgTrain.maxSeqLength
      ∧ (cfgTrain.addEos = true → seA.posDoc.getLast? = some tokW.eosId))
    ∧ (∀ n ∈ seA.negDoc, n.length ≤ cfgTrain.maxSeqLength
      ∧ (cfgTrain.addEos = true → n.getLast? = some tokW.eosId))) :=
  ⟨⟨by decide, by rfl⟩,
    c5_shaped_sequences cfgTrain tokW rngW recA seA (by decide) (by rfl)⟩

/-- C6: for a row of pre-pad length at most the padded length, the
attention-mask row sums to the pre-pad length; with left truncation the ones
are a contiguous suffix and the pad tokens sit on the left, with right
truncation the ones are a contiguous prefix and the pad tokens sit on the
right — mask zeros and pad tokens always share a side. -/
theorem c6_attention_mask_and_padding (cfg : Config) (tok : Tokenizer)
    (x : List Int) (maxLength : Nat) (h : x.length ≤ maxLength) :
    (createAttentionMask2 cfg maxLength x.length).sum = (x.length : Int)
    ∧ (cfg.truncationMethod = "left" →
        createAttentionMask2 cfg maxLength x.length
          = List.replicate (maxLength - x.length) 0 ++ List.replicate x.length 1
        ∧ collateItem cfg tok [x] maxLength
          = [List.replicate (maxLength - x.length) (padTokenId tok) ++ x])
    ∧ (cfg.truncationMethod = "right" →
        createAttentionMask2 cfg maxLength x.length
          = List.replicate x.length 1 ++ List.replicate (maxLength - x.length) 0
        ∧ collateItem cfg tok [x] maxLength
          = [x ++ List.replicate (maxLength - x.length) (padTokenId tok)]) := by
  refine ⟨createAttentionMask2_sum cfg maxLength x.length h, ?_, ?_⟩
  · intro hcfg
    exact ⟨createAttentionMask2_left cfg maxLength x.length hcfg h,
      by simp [collateItem, hcfg]⟩
  · intro hcfg
    have hne : ¬ cfg.truncationMethod = "left" := by
      rw [hcfg]; decide
    exact ⟨createAttentionMask2_right cfg maxLength x.length hne h,
      by simp [collateItem, hne]⟩

/-- Witness for C6 at a concrete left-truncation configuration. -/
theorem c6_attention_mask_and_padding_witness :
    (([5, 2] : List Int).length ≤ 6)
    ∧ ((createAttentionMask2 cfgLeft 6 ([5, 2] : List Int).length).sum
        = (([5, 2] : List Int).length : Int)
    ∧ (cfgLeft.truncationMethod = "left" →
        createAttentionMask2 cfgLeft 6 ([5, 2] : List Int).length
          = List.replicate (6 - ([5, 2] : List Int).length) 0
              ++ List.replicate ([5, 2] : List Int).length 1
        ∧ collateItem cfgLeft tokW [[5, 2]] 6
          = [List.replicate (6 - ([5, 2] : List Int).length) (padTokenId tokW) ++ [5, 2]])
    ∧ (cfgLeft.truncationMethod = "right" →
        createAttentionMask2 cfgLeft 6 ([5, 2] : List Int).length
          = List.replicate ([5, 2] : List Int).length 1
              ++ List.replicate (6 - ([5, 2] : List Int).length) 0
        ∧ collateItem cfgLeft tokW [[5, 2]] 6
          = [[5, 2] ++ List.replicate (6 - ([5, 2] : List Int).length) (padTokenId tokW)])) :=
  ⟨by decide, c6_attention_mask_and_padding cfgLeft tokW [5, 2] 6 (by decide)⟩

/-- C7: for a non-empty batch with a recognised mode, the shared padded
length is `min(max_seq_length, ceil_to_nearest(raw_max, 16))` where `raw_max`
bounds (and is attained by) the pre-pad row lengths; it is a multiple of 16
unless it equals a `max_seq_length` that is not one; and the
`max_length <= max_seq_length` assertion never fails, so collation returns a
batch. -/
theorem c7_padded_length_law (cfg : Config) (tok : Tokenizer)
    (batch : List ShapedExample)
    (hmode : cfg.dataType = "train" ∨ cfg.dataType = "query" ∨ cfg.dataType = "doc")
    (hne : batch ≠ [])
    (hrows : ∀ row ∈ collateRows cfg batch, row.length ≤ cfg.maxSeqLength) :
    ((paddedLength cfg.maxSeqLength (collateRows cfg batch) : Int)
        = min (cfg.maxSeqLength : Int)
            (ceilToNearest (rowLengthsMax (collateRows cfg batch)) 16))
    ∧ (paddedLength cfg.maxSeqLength (collateRows cfg batch) % 16 = 0
        ∨ (paddedLength cfg.maxSeqLength (collateRows cfg batch) = cfg.maxSeqLength
            ∧ cfg.maxSeqLength % 16 ≠ 0))
    ∧ paddedLength cfg.maxSeqLength (collateRows cfg batch) ≤ cfg.maxSeqLength
    ∧ (∀ row ∈ collateRows cfg batch,
        (row.length : Int) ≤ rowLengthsMax (collateRows cfg batch))
    ∧ (∃ row, row ∈ collateRows cfg batch
        ∧ (row.length : Int) = rowLengthsMax (collateRows cfg batch))
    ∧ (collateFn cfg tok batch).isSome = true := by
  have hinit : (-1 : Int) ≤ rowLengthsMax (collateRows cfg batch) :=
    foldl_max_init_le _ _
  have hceil0 : (0 : Int) ≤ ceilToNearest (rowLengthsMax (collateRows cfg batch)) 16 := by
    unfold ceilToNearest
    omega
  have hmin0 : (0 : Int)
      ≤ min ((cfg.maxSeqLength : Int))
          (ceilToNearest (rowLengthsMax (collateRows cfg batch)) 16) :=
    le_min (by exact_mod_cast Nat.zero_le cfg.maxSeqLength) hceil0
  have hcast : ((paddedLength cfg.maxSeqLength (collateRows cfg batch)) : Int)
      = min ((cfg.maxSeqLength : Int))
          (ceilToNearest (rowLengthsMax (collateRows cfg batch)) 16) := by
    unfold paddedLength
    exact Int.toNat_of_nonneg hmin0
  refine ⟨hcast, ?_, paddedLength_le _ _, ?_, ?_, ?_⟩
  · rcases min_choice ((cfg.maxSeqLength : Int))
        (ceilToNearest (rowLengthsMax (collateRows cfg batch)) 16) with hmc | hmc
    · rw [hmc] at hcast
      omega
    · rw [hmc] at hcast
      unfold ceilToNearest at hcast
      omega
  · intro row hrow
    exact le_foldl_max_of_mem _ _ _
      (List.mem_map_of_mem (fun r => (r.length : Int)) hrow)
  · have hrne : collateRows cfg batch ≠ [] := by
      rcases batch with _ | ⟨item, rest⟩
      · exact absurd rfl hne
      · have hb : batchRows cfg item ≠ [] := by
          rcases hmode with h | h | h <;> simp [batchRows, h]
        simp only [collateRows, List.map_cons, List.flatten_cons]
        intro hcontra
        exact hb (List.append_eq_nil.1 hcontra).1
    rcases foldl_max_eq_init_or_mem
        ((collateRows cfg batch).map (fun r => (r.length : Int))) (-1) with hcase | hcase
    · exfalso
      rcases List.exists_mem_of_ne_nil _ hrne with ⟨row0, hrow0⟩
      have hle : ((row0.length : Int)) ≤ rowLengthsMax (collateRows cfg batch) :=
        le_foldl_max_of_mem _ _ _
          (List.mem_map_of_mem (fun r => (r.length : Int)) hrow0)
      unfold rowLengthsMax at hle
      omega
    · rcases List.mem_map.1 hcase with ⟨row, hrow, heq⟩
      exact ⟨row, hrow, heq⟩
  · rw [collateFn_eq_of_valid cfg tok batch hmode]
    rfl

/-- Witness for C7 on a concrete batch of two train examples. -/
theorem c7_padded_length_law_witness :
    ((cfgTrain.dataType = "train" ∨ cfgTrain.dataType = "query" ∨ cfgTrain.dataType = "doc")
      ∧ batchC ≠ []
      ∧ (∀ row ∈ collateRows cfgTrain batchC, row.length ≤ cfgTrain.maxSeqLength))
    ∧ (((paddedLength cfgTrain.maxSeqLength (collateRows cfgTrain batchC) : Int)
        = min (cfgTrain.maxSeqLength : Int)
            (ceilToNearest (rowLengthsMax (collateRows cfgTrain batchC)) 16))
    ∧ (paddedLength cfgTrain.maxSeqLength (collateRows cfgTrain batchC) % 16 = 0
        ∨ (paddedLength cfgTrain.maxSeqLength (collateRows cfgTrain batchC)
              = cfgTrain.maxSeqLength
            ∧ cfgTrain.maxSeqLength % 16 ≠ 0))
    ∧ paddedLength cfgTrain.maxSeqLength (collateRows cfgTrain batchC)
        ≤ cfgTrain.maxSeqLength
    ∧ (∀ row ∈ collateRows cfgTrain batchC,
        (row.length : Int) ≤ rowLengthsMax (collateRows cfgTrain batchC))
    ∧ (∃ row, row ∈ collateRows cfgTrain batchC
        ∧ (row.length : Int) = rowLengthsMax (collateRows cfgTrain batchC))
    ∧ (collateFn cfgTrain tokW batchC).isSome = true) :=
  ⟨⟨by decide, by decide, by decide⟩,
    c7_padded_length_law cfgTrain tokW batchC (by decide) (by decide) (by decide)⟩

/-- C1 (amended): `position_ids` has one identical ascending row
`[0, 1, ..., L-1]` per *batch example* — `len(batch)` rows, not one row per
flattened `input_ids` row. -/
theorem c1_position_ids_rows (cfg : Config) (tok : Tokenizer)
    (batch : List ShapedExample) (d : List (String × BatchValue))
    (hmode : cfg.dataType = "train" ∨ cfg.dataType = "query" ∨ cfg.dataType = "doc")
    (hd : collateFn cfg tok batch = some d) :
    dictGet d "position_ids"
      = some (BatchValue.tensor (batch.map (fun _ =>
          (List.range (paddedLength cfg.maxSeqLength (collateRows cfg batch))).map
            (fun i => (i : Int)))))
    ∧ (∀ P, dictGet d "position_ids" = some (BatchValue.tensor P) →
        P.length = batch.length
        ∧ ∀ r ∈ P, r = (List.range (paddedLength cfg.maxSeqLength
            (collateRows cfg batch))).map (fun i => (i : Int))) := by
  rw [collateFn_eq_of_valid cfg tok batch hmode] at hd
  have hdd : collateDictOf cfg tok batch = d := by
    injection hd
  subst hdd
  have h1 : dictGet (collateDictOf cfg tok batch) "position_ids"
      = some (BatchValue.tensor (batch.map (fun _ =>
          (List.range (paddedLength cfg.maxSeqLength (collateRows cfg batch))).map
            (fun i => (i : Int))))) := by
    simp [collateDictOf, dictGet]
  refine ⟨h1, ?_⟩
  intro P hP
  rw [h1, Option.some.injEq, BatchValue.tensor.injEq] at hP
  subst hP
  constructor
  · exact List.length_map _ _
  · intro r hr
    rcases List.mem_map.1 hr with ⟨_, _, rfl⟩
    rfl

/-- C1 counterexample (Scenario C): for a batch of 2 train examples with one
hard negative each, `input_ids` has 6 rows but `position_ids` has only 2 —
not one row per flattened sequence row. -/
theorem c1_counterexample :
    ((collateFn cfgTrain tokW batchC).bind (fun d => dictGet d "position_ids")).map numRows
        = some 2
    ∧ ((collateFn cfgTrain tokW batchC).bind (fun d => dictGet d "input_ids")).map numRows
        = some 6
    ∧ (2 : Nat) ≠ 6 := by
  exact ⟨rfl, rfl, by decide⟩

/-- Witness for C1 on a concrete batch. -/
theorem c1_position_ids_rows_witness :
    ((cfgTrain.dataType = "train" ∨ cfgTrain.dataType = "query" ∨ cfgTrain.dataType = "doc")
      ∧ collateFn cfgTrain tokW batchC = some (collateDictOf cfgTrain tokW batchC))
    ∧ (dictGet (collateDictOf cfgTrain tokW batchC) "position_ids"
      = some (BatchValue.tensor (batchC.map (fun _ =>
          (List.range (paddedLength cfgTrain.maxSeqLength (collateRows cfgTrain batchC))).map
            (fun i => (i : Int)))))
    ∧ (∀ P, dictGet (collateDictOf cfgTrain tokW batchC) "position_ids"
          = some (BatchValue.tensor P) →
        P.length = batchC.length
        ∧ ∀ r ∈ P, r = (List.range (paddedLength cfgTrain.maxSeqLength
            (collateRows cfgTrain batchC))).map (fun i => (i : Int)))) :=
  ⟨⟨Or.inl rfl, collateFn_eq_of_valid cfgTrain tokW batchC (Or.inl rfl)⟩,
    c1_position_ids_rows cfgTrain tokW batchC (collateDictOf cfgTrain tokW batchC)
      (Or.inl rfl) (collateFn_eq_of_valid cfgTrain tokW batchC (Or.inl rfl))⟩

/-- C2 (amended): `_collate_fn` computes the raw row lengths minus 1
(`collateLengthsMinusOne`, line 373) but the returned batch dict does not
include them — its outputs are exactly `input_ids`, `token_type_ids`,
`attention_mask`, `metadata` and `position_ids`. -/
theorem c2_lengths_not_in_batch (cfg : Config) (tok : Tokenizer)
    (batch : List ShapedExample) (d : List (String × BatchValue))
    (hmode : cfg.dataType = "train" ∨ cfg.dataType = "query" ∨ cfg.dataType = "doc")
    (hd : collateFn cfg tok batch = some d) :
    d.map Prod.fst
        = ["input_ids", "token_type_ids", "attention_mask", "metadata", "position_ids"]
    ∧ dictGet d "lengths" = none
    ∧ collateLengthsMinusOne cfg batch
        = (collateRows cfg batch).map (fun r => (r.length : Int) - 1) := by
  rw [collateFn_eq_of_valid cfg tok batch hmode] at hd
  have hdd : collateDictOf cfg tok batch = d := by
    injection hd
  subst hdd
  refine ⟨rfl, ?_, ?_⟩
  · simp [collateDictOf, dictGet]
  · simp [collateLengthsMinusOne, List.map_map]

/-- C2 counterexample: on a concrete collated batch the returned dict holds
exactly the five tensor outputs and no `lengths` entry. -/
theorem c2_counterexample :
    (collateFn cfgTrain tokW batchC).map (fun d => d.map Prod.fst)
        = some ["input_ids", "token_type_ids", "attention_mask", "metadata", "position_ids"]
    ∧ ((collateFn cfgTrain tokW batchC).bind (fun d => dictGet d "lengths")) = none := by
  exact ⟨rfl, rfl⟩

/-- Witness for C2 on a concrete batch. -/
theorem c2_lengths_not_in_batch_witness :
    ((cfgTrain.dataType = "train" ∨ cfgTrain.dataType = "query" ∨ cfgTrain.dataType = "doc")
      ∧ collateFn cfgTrain tokW batchC = some (collateDictOf cfgTrain tokW batchC))
    ∧ ((collateDictOf cfgTrain tokW batchC).map Prod.fst
        = ["input_ids", "token_type_ids", "attention_mask", "metadata", "position_ids"]
    ∧ dictGet (collateDictOf cfgTrain tokW batchC) "lengths" = none
    ∧ collateLengthsMinusOne cfgTrain batchC
        = (collateRows cfgTrain batchC).map (fun r => (r.length : Int) - 1)) :=
  ⟨⟨Or.inl rfl, collateFn_eq_of_valid cfgTrain tokW batchC (Or.inl rfl)⟩,
    c2_lengths_not_in_batch cfgTrain tokW batchC (collateDictOf cfgTrain tokW batchC)
      (Or.inl rfl) (collateFn_eq_of_valid cfgTrain tokW batchC (Or.inl rfl))⟩

/-- C8 (amended): the constructor `assert`s validate exactly the truncation
side and the negative-sample strategy; an invalid mode (`data_type`) is not
checked at construction and is rejected only when an example is
transformed. -/
theorem c8_construction_validation (cfg : Config) (tok : Tokenizer)
    (rng : Nat → Nat) (ex : RawRecord) :
    (∀ tm st : String, initValid tm st = true
        ↔ ((tm = "left" ∨ tm = "right") ∧ (st = "random" ∨ st = "first")))
    ∧ (cfg.dataType ≠ "train" → cfg.dataType ≠ "query" → cfg.dataType ≠ "doc" →
        processExample cfg tok rng ex
          = Except.error (ProcessError.invalidDataType cfg.dataType)) := by
  constructor
  · intro tm st
    simp [initValid, Bool.and_eq_true, Bool.or_eq_true, beq_iff_eq]
  · intro h1 h2 h3
    simp [processExample, h1, h2, h3]

/-- C8 counterexample: a dataset whose `data_type` is `"bogus"` passes the
constructor validation (which only inspects truncation side and strategy),
and the invalid mode only raises at per-item transform time. -/
theorem c8_counterexample :
    initValid cfgBogus.truncationMethod cfgBogus.negativeSampleStrategy = true
    ∧ processExample cfgBogus tokW rngW recA
        = Except.error (ProcessError.invalidDataType "bogus") := by
  exact ⟨rfl, rfl⟩

/-- Witness for C8 at the concrete invalid-mode configuration. -/
theorem c8_construction_validation_witness :
    (cfgBogus.dataType ≠ "train" ∧ cfgBogus.dataType ≠ "query" ∧ cfgBogus.dataType ≠ "doc")
    ∧ processExample cfgBogus tokW rngW recA
        = Except.error (ProcessError.invalidDataType cfgBogus.dataType) :=
  ⟨⟨by decide, by decide, by decide⟩,
    (c8_construction_validation cfgBogus tokW rngW recA).2
      (by decide) (by decide) (by decide)⟩

/-- C9: in query mode the transform fails with a missing-field error when
`query_id` (checked first) or `doc_id` is absent, in doc mode when `doc_id`
is absent, producing no shaped example; records carrying the required fields
succeed. -/
theorem c9_missing_field_errors (cfg : Config) (tok : Tokenizer)
    (rng : Nat → Nat) (ex : RawRecord) :
    (cfg.dataType = "query" →
      (ex.hasQueryId = false →
        processExample cfg tok rng ex = Except.error (ProcessError.missingField "query_id"))
      ∧ (ex.hasQueryId = true → ex.hasDocId = false →
        processExample cfg tok rng ex = Except.error (ProcessError.missingField "doc_id"))
      ∧ (ex.hasQueryId = true → ex.hasDocId = true →
        ∃ se, processExample cfg tok rng ex = Except.ok se))
    ∧ (cfg.dataType = "doc" →
      (ex.hasDocId = false →
        processExample cfg tok rng ex = Except.error (ProcessError.missingField "doc_id"))
      ∧ (ex.hasDocId = true →
        ∃ se, processExample cfg tok rng ex = Except.ok se)) := by
  constructor
  · intro hq
    have hn1 : cfg.dataType ≠ "train" := by
      rw [hq]; decide
    refine ⟨fun h1 => ?_, fun h1 h2 => ?_, fun h1 h2 => ?_⟩
    · simp [processExample, hn1, hq, h1]
    · simp [processExample, hn1, hq, h1, h2]
    · exact ⟨{ query := shapeSeq cfg tok (tok.textToIds ("query: " ++ ex.query.trim)),
               posDoc := shapeSeq cfg tok [], negDoc := [], metadata := ex },
        by simp [processExample, hn1, hq, h1, h2]⟩
  · intro hdoc
    have hn1 : cfg.dataType ≠ "train" := by
      rw [hdoc]; decide
    have hn2 : cfg.dataType ≠ "query" := by
      rw [hdoc]; decide
    refine ⟨fun h1 => ?_, fun h1 => ?_⟩
    · simp [processExample, hn1, hn2, hdoc, h1]
    · exact ⟨{ query := shapeSeq cfg tok [],
               posDoc := shapeSeq cfg tok (tok.textToIds ("passage: " ++ ex.posDoc.trim)),
               negDoc := [], metadata := ex },
        by simp [processExample, hn1, hn2, hdoc, h1]⟩

/-- Witness for C9: query mode on a record lacking `doc_id`. -/
theorem c9_missing_field_errors_witness :
    (cfgQuery.dataType = "query"
      ∧ recNoDocId.hasQueryId = true ∧ recNoDocId.hasDocId = false)
    ∧ processExample cfgQuery tokW rngW recNoDocId
        = Except.error (ProcessError.missingField "doc_id") :=
  ⟨⟨rfl, rfl, rfl⟩,
    ((c9_missing_field_errors cfgQuery tokW rngW recNoDocId).1 rfl).2.1 rfl rfl⟩

/-- C10: the pad id is taken from the tokenizer only when truthy — a pad id
of `None` or `0` falls back to the eos id, so every padded position of the
collated `input_ids` then holds the eos id. -/
theorem c10_pad_id_truthiness (cfg : Config) (tok : Tokenizer)
    (x : List Int) (maxLength : Nat) :
    (tok.padId = some 0 → padTokenId tok = tok.eosId)
    ∧ (tok.padId = none → padTokenId tok = tok.eosId)
    ∧ (∀ p : Int, tok.padId = some p → p ≠ 0 → padTokenId tok = p)
    ∧ ((tok.padId = some 0 ∨ tok.padId = none) →
        collateItem cfg tok [x] maxLength
          = [if cfg.truncationMethod = "left"
             then List.replicate (maxLength - x.length) tok.eosId ++ x
             else x ++ List.replicate (maxLength - x.length) tok.eosId]) := by
  have hsome0 : tok.padId = some 0 → padTokenId tok = tok.eosId := by
    intro h
    simp [padTokenId, h]
  have hnone : tok.padId = none → padTokenId tok = tok.eosId := by
    intro h
    simp [padTokenId, h]
  refine ⟨hsome0, hnone, ?_, ?_⟩
  · intro p hp hp0
    simp [padTokenId, hp, hp0]
  · intro hor
    have hpad : padTokenId tok = tok.eosId := by
      rcases hor with h | h
      · exact hsome0 h
      · exact hnone h
    by_cases hcfg : cfg.truncationMethod = "left"
    · simp [collateItem, hcfg, hpad]
    · simp [collateItem, hcfg, hpad]

/-- Witness for C10 with a tokenizer whose configured pad id is `0`. -/
theorem c10_pad_id_truthiness_witness :
    (tokPad0.padId = some 0)
    ∧ collateItem cfgTrain tokPad0 [[5, 2]] 16
        = [if cfgTrain.truncationMethod = "left"
           then List.replicate (16 - ([5, 2] : List Int).length) tokPad0.eosId ++ [5, 2]
           else [5, 2] ++ List.replicate (16 - ([5, 2] : List Int).length) tokPad0.eosId] :=
  ⟨rfl, (c10_pad_id_truthiness cfgTrain tokPad0 [5, 2] 16).2.2.2 (Or.inl rfl)⟩
